import Mathlib

/-
Formal model of the CodeSwarm iterative quality-gated execution engine:
the per-agent retry/fallback controller (src/agents/base_agent.py,
src/agents/implementation_agent.py) and its model-selection heuristic
(src/agents/model_selector.py), together with the text-to-project pipeline
(response parsing, file-map decomposition, cross-file reference validation).

Python strings are modelled as Lean String (a structure over List Char);
Python float scores as rationals; Python int counters as Int or Nat as
appropriate; Python exceptions as explicit error results; the async calls to
the completion provider and the evaluator as oracle functions indexed by the
call counter.  Wall-clock latency is not modelled (it never influences
control flow).
-/

set_option maxHeartbeats 1000000

/-! ## Python string primitives -/

/-- Whitespace test used by Python str.strip / regex backslash-s (modelled by
the standard whitespace predicate on characters). -/
def isPySpace (c : Char) : Bool := c.isWhitespace

/-- Python str.lower, modelled character-wise. -/
def pyLower (s : String) : String := ⟨s.data.map Char.toLower⟩

/-- Does the first list occur as a prefix of the second (on characters)? -/
def charsPrefixOf : List Char → List Char → Bool
  | [], _ => true
  | _ :: _, [] => false
  | a :: as, b :: bs => a == b && charsPrefixOf as bs

/-- Does the first list occur as a contiguous substring of the second? -/
def charsInfixOf (sub : List Char) : List Char → Bool
  | [] => charsPrefixOf sub []
  | c :: t => charsPrefixOf sub (c :: t) || charsInfixOf sub t

/-- The Python membership test sub in s on strings. -/
def pyIn (sub s : String) : Bool := charsInfixOf sub.data s.data

/-- Python s.startswith(p). -/
def pyStartsWith (p s : String) : Bool := charsPrefixOf p.data s.data

/-- Python s.endswith(p). -/
def pyEndsWith (p s : String) : Bool := charsPrefixOf p.data.reverse s.data.reverse

/-- Strip the given set of characters from the front (Python str.lstrip(chars)). -/
def pyLStripChars (chars : List Char) (s : String) : String :=
  ⟨s.data.dropWhile (fun c => chars.contains c)⟩

/-- Strip whitespace from both ends on character lists. -/
def stripChars (l : List Char) : List Char :=
  ((l.dropWhile isPySpace).reverse.dropWhile isPySpace).reverse

/-- Python str.strip() with no argument. -/
def pyStrip (s : String) : String := ⟨stripChars s.data⟩

/-- Fuel-indexed splitter: the fuel bounds the recursion depth, and the
length of the input always suffices because every step drops at least one
character when the separator is nonempty. -/
def pySplitF (sep : List Char) : Nat → List Char → List (List Char)
  | 0, l => [l]
  | _ + 1, [] => [[]]
  | fuel + 1, c :: t =>
    if charsPrefixOf sep (c :: t) then
      [] :: pySplitF sep fuel ((c :: t).drop sep.length)
    else
      match pySplitF sep fuel t with
      | [] => [[c]]
      | h :: r => (c :: h) :: r

/-- Python s.split(sep) for a nonempty separator, on character lists:
leftmost, non-overlapping occurrences of sep delimit the pieces. -/
def pySplit (sep : List Char) (l : List Char) : List (List Char) :=
  pySplitF sep l.length l

/-- Python s.split(sep) on strings. -/
def pySplitStr (sep s : String) : List String := (pySplit sep.data s.data).map (⟨·⟩)

/-- Join a list of character lists with a separator (Python sep.join). -/
def joinSep (sep : List Char) : List (List Char) → List Char
  | [] => []
  | [x] => x
  | x :: y :: r => x ++ sep ++ joinSep sep (y :: r)

/-- Python sep.join(pieces) on strings. -/
def pyJoin (sep : String) (pieces : List String) : String :=
  ⟨joinSep sep.data (pieces.map String.data)⟩

/-- Python os.path.dirname for forward-slash paths: everything before the last
slash (empty when there is no slash). -/
def pyDirname (s : String) : String :=
  let parts := pySplit ['/'] s.data
  ⟨joinSep ['/'] (parts.dropLast)⟩

/-! ## Model selector (src/agents/model_selector.py) -/

/-- TaskType enum from model_selector.py. -/
inductive TaskType where
  | WEB_FRONTEND
  | BACKEND_API
  | DATA_SCIENCE
  | MOBILE
  | DEVOPS
  | DATABASE
  | GENERAL
deriving DecidableEq, Repr

/-- Keyword list for web frontend detection (detect_task_type). -/
def web_keywords : List String :=
  ["website", "web", "html", "css", "react", "vue", "angular",
   "frontend", "ui", "interface", "page", "landing", "portfolio",
   "button", "form", "navbar", "header", "footer", "responsive"]

/-- Keyword list for backend/API detection. -/
def backend_keywords : List String :=
  ["api", "backend", "server", "endpoint", "database query",
   "rest", "graphql", "microservice", "authentication", "crud"]

/-- Keyword list for data science detection. -/
def ds_keywords : List String :=
  ["machine learning", "ml", "data analysis", "pandas",
   "numpy", "tensorflow", "pytorch", "model", "prediction",
   "classification", "regression", "neural network"]

/-- Keyword list for mobile detection. -/
def mobile_keywords : List String :=
  ["mobile app", "ios", "android", "swift", "kotlin",
   "react native", "flutter", "mobile"]

/-- Keyword list for DevOps detection. -/
def devops_keywords : List String :=
  ["docker", "kubernetes", "k8s", "ci/cd", "pipeline",
   "terraform", "ansible", "infrastructure", "deployment"]

/-- Keyword list for database detection. -/
def db_keywords : List String :=
  ["database", "sql", "postgresql", "mysql", "mongodb",
   "query", "schema", "migration", "orm"]

/-- The Python generator test any(kw in task_lower for kw in kws). -/
def keywordHit (kws : List String) (task_lower : String) : Bool :=
  kws.any (fun kw => pyIn kw task_lower)

/-- ModelSelector.detect_task_type: classify a task string by keyword
membership on the lowercased task, in the fixed source order. -/
def detect_task_type (task : String) : TaskType :=
  let task_lower := pyLower task
  if keywordHit web_keywords task_lower then .WEB_FRONTEND
  else if keywordHit backend_keywords task_lower then .BACKEND_API
  else if keywordHit ds_keywords task_lower then .DATA_SCIENCE
  else if keywordHit mobile_keywords task_lower then .MOBILE
  else if keywordHit devops_keywords task_lower then .DEVOPS
  else if keywordHit db_keywords task_lower then .DATABASE
  else .GENERAL

/-- TASK_MODEL_PREFERENCES / get_model_sequence: ordered model list per task
type (the dict lookup is total, so the .get fallback branch is dead). -/
def get_model_sequence : TaskType → List String
  | .WEB_FRONTEND => ["gpt-5-pro", "claude-sonnet-4.5", "claude-opus-4.1"]
  | .BACKEND_API => ["claude-opus-4.1", "gpt-5-pro", "claude-sonnet-4.5"]
  | .DATA_SCIENCE => ["gpt-5-pro", "claude-opus-4.1", "claude-sonnet-4.5"]
  | .MOBILE => ["gpt-5-pro", "claude-sonnet-4.5", "claude-opus-4.1"]
  | .DEVOPS => ["claude-opus-4.1", "gpt-5-pro", "claude-sonnet-4.5"]
  | .DATABASE => ["claude-opus-4.1", "claude-sonnet-4.5", "gpt-5-pro"]
  | .GENERAL => ["claude-sonnet-4.5", "gpt-5-pro", "claude-opus-4.1"]

/-- Python list.index as an optional position: the index of the first
element equal to the argument, or none (the ValueError case). -/
def pyIndex? (x : String) : List String → Option Nat
  | [] => none
  | y :: t => if y == x then some 0 else (pyIndex? x t).map (· + 1)

/-- ModelSelector.get_next_model.  Python uses list.index inside try/except:
on success it returns the following element when one exists, else None; the
ValueError handler for an unknown current model returns the first element of
the sequence (sequences are never empty). -/
def get_next_model (current_model : String) (task_type : TaskType)
    (attempts_with_current : Nat) : Option String :=
  let model_sequence := get_model_sequence task_type
  match pyIndex? current_model model_sequence with
  | some current_index =>
    if current_index + 1 < model_sequence.length then
      model_sequence[current_index + 1]?
    else
      none
  | none => model_sequence.head?

/-- ModelSelector.should_fallback: decide whether to switch to the fallback
model, from iteration statistics.  Iteration counts are Python ints
(modelled as Int so that max_iterations - 1 is ordinary subtraction);
scores are floats (modelled as rationals). -/
def should_fallback (iterations_completed max_iterations : Int)
    (best_score quality_threshold score_improvement : ℚ) : Bool :=
  if iterations_completed ≥ max_iterations ∧ best_score < quality_threshold then
    true
  else if score_improvement < 0 ∧ iterations_completed ≥ 2 then
    true
  else if score_improvement < 1 ∧ iterations_completed ≥ max_iterations - 1 then
    true
  else
    false

/-- Priority order of the keyword checks in detect_task_type, paired with
each category keyword list (the source tests them in exactly this order). -/
def categoryChecks : List (List String × TaskType) :=
  [(web_keywords, .WEB_FRONTEND), (backend_keywords, .BACKEND_API),
   (ds_keywords, .DATA_SCIENCE), (mobile_keywords, .MOBILE),
   (devops_keywords, .DEVOPS), (db_keywords, .DATABASE)]

/-- Specification-side classifier: the first category in the priority order
whose keyword set has a hit on the lowercased task wins, else GENERAL. -/
def classifySpec (task : String) : TaskType :=
  match categoryChecks.find? (fun p => keywordHit p.1 (pyLower task)) with
  | some p => p.2
  | none => .GENERAL

/-! ## Response parsing (BaseAgent._parse_response, ImplementationAgent._parse_response) -/

/-- Language identifiers recognized by the base single-file parser. -/
def base_language_identifiers : List String :=
  ["python", "javascript", "typescript", "java", "go", "rust"]

/-- Language identifiers recognized by the implementation multi-file parser. -/
def language_identifiers : List String :=
  ["html", "css", "scss", "sass", "less",
   "javascript", "js", "jsx", "typescript", "ts", "tsx",
   "python", "py", "java", "kotlin", "kt",
   "go", "rust", "rs", "c", "cpp", "c++", "csharp", "cs",
   "php", "ruby", "rb", "perl", "swift",
   "bash", "sh", "shell", "zsh", "fish",
   "json", "yaml", "yml", "toml", "xml", "ini", "env",
   "sql", "postgresql", "mysql", "sqlite",
   "dart", "flutter", "vue", "svelte",
   "markdown", "md", "txt", "dockerfile", "makefile",
   "graphql", "proto", "protobuf"]

/-- BaseAgent._parse_response: take the first fenced block as code (stripping
a recognized language tag line), the text after the second fence as
reasoning; with no fence the whole content is reasoning and code is empty. -/
def base_parse_response (content : String) : String × String :=
  if pyIn "```" content then
    let parts := pySplitStr "```" content
    let code :=
      if parts.length ≥ 2 then
        let code_block := (parts[1]?).getD ""
        let lines := pySplitStr "\n" code_block
        match lines with
        | [] => code_block
        | l0 :: rest =>
          if base_language_identifiers.contains (pyStrip l0) then
            pyJoin "\n" rest
          else code_block
      else ""
    let reasoning := if parts.length ≥ 3 then pyStrip ((parts[2]?).getD "") else ""
    (pyStrip code, pyStrip reasoning)
  else
    ("", pyStrip content)

/-- File-marker recognition for the multi-file parser regex, which demands a
comment prefix of two slashes or a hash, optional whitespace, the literal
file: or File:, and a nonempty remainder on the same line (the MULTILINE
regex is applied line-locally; its capture group, after the strip that every
caller applies, is the remainder stripped of whitespace).  Returns the
stripped file name when the line is a marker. -/
def markerName1? (line : String) : Option String :=
  let cs := line.data
  let rest? : Option (List Char) :=
    if charsPrefixOf ['/', '/'] cs then some (cs.drop 2)
    else if charsPrefixOf ['#'] cs then some (cs.drop 1)
    else none
  match rest? with
  | none => none
  | some cs1 =>
    let cs2 := cs1.dropWhile isPySpace
    if charsPrefixOf ['f', 'i', 'l', 'e', ':'] cs2 ||
       charsPrefixOf ['F', 'i', 'l', 'e', ':'] cs2 then
      let tail := cs2.drop 5
      if tail.isEmpty then none else some (pyStrip ⟨tail⟩)
    else none

/-- One file section produced by splitting on markers: the marker name and
the body lines up to the next marker. -/
structure FileSection where
  name : String
  bodyLines : List String
deriving Repr

/-- Group the lines of a response into marker-delimited sections, dropping
the text before the first marker (the parser skips element 0 of re.split). -/
def splitSectionsGo (cur : FileSection) : List String → List FileSection
  | [] => [cur]
  | l :: ls =>
    match markerName1? l with
    | some name => cur :: splitSectionsGo ⟨name, []⟩ ls
    | none => splitSectionsGo ⟨cur.name, cur.bodyLines ++ [l]⟩ ls

/-- All marker-delimited sections of a line list (empty when no marker). -/
def splitSections : List String → List FileSection
  | [] => []
  | l :: ls =>
    match markerName1? l with
    | some name => splitSectionsGo ⟨name, []⟩ ls
    | none => splitSections ls

/-- Process one file section exactly as the multi-file parser does: when the
body holds a fence, take the first fenced block, strip a recognized
(lowercased) language tag line, and emit the canonical marker, the stripped
code and a blank line; with no fence emit the marker and the stripped body.
The parts-length guard mirrors the source; when a fence occurs the split
always has at least two parts. -/
def sectionCombined (sec : FileSection) : List String :=
  let file_content := pyJoin "\n" sec.bodyLines
  if pyIn "```" file_content then
    let parts := pySplitStr "```" file_content
    if parts.length ≥ 2 then
      let code_block := (parts[1]?).getD ""
      let lines := pySplitStr "\n" code_block
      let code :=
        match lines with
        | [] => code_block
        | l0 :: rest =>
          if language_identifiers.contains (pyLower (pyStrip l0)) then
            pyJoin "\n" rest
          else code_block
      ["# File: " ++ sec.name, pyStrip code, ""]
    else []
  else
    ["# File: " ++ sec.name, pyStrip file_content, ""]

/-- Leftmost character index of the first occurrence of sub, if any. -/
def findSubIdx (sub : List Char) : List Char → Option Nat
  | [] => if charsPrefixOf sub [] then some 0 else none
  | c :: t =>
    if charsPrefixOf sub (c :: t) then some 0
    else (findSubIdx sub t).map (· + 1)

/-- The Reasoning block search of the multi-file parser: a case-insensitive
Reasoning: anywhere in the content, capturing everything after it (DOTALL);
the capture needs at least one character; the result is stripped. -/
def reasoningSearch (content : String) : Option String :=
  match findSubIdx "reasoning:".data (pyLower content).data with
  | some i =>
    let after := content.data.drop (i + 10)
    if after.isEmpty then none else some (pyStrip ⟨after⟩)
  | none => none

/-- Fallback reasoning extraction when no Reasoning block exists: the text
after the final fence of the last section, when that section has at least
three fence-split parts. -/
def lastSectionReasoning (sections : List FileSection) : String :=
  match sections.getLast? with
  | none => ""
  | some sec =>
    let last_section := pyJoin "\n" sec.bodyLines
    if pyIn "```" last_section then
      let parts := pySplitStr "```" last_section
      if parts.length ≥ 3 then pyStrip ((parts.getLast?).getD "") else ""
    else ""

/-- File-extension sniffing used by the single-file fallback of
ImplementationAgent._parse_response (the Python conjunction binds tighter
than the disjunctions in the py test). -/
def sniffExtension (code : String) : String :=
  if pyIn "<!DOCTYPE html>" code || pyIn "<html" code then "html"
  else if pyIn "function" code || pyIn "const " code || pyIn "let " code ||
          pyIn "var " code then "js"
  else if pyIn "def " code || pyIn "import " code ||
          (pyIn "class " code && pyIn ":" code) then "py"
  else "html"

/-- ImplementationAgent._parse_response.  With file markers present the
sections are re-emitted as a normalized blob under canonical markers and an
empty result raises ValueError (modelled as the error case); with no markers
the base parser runs, and a nonempty code result is wrapped under a sniffed
index file marker. -/
def impl_parse_response (content : String) : Except String (String × String) :=
  let lines := pySplitStr "\n" content
  if lines.any (fun l => (markerName1? l).isSome) then
    let sections := splitSections lines
    let combined_code := (sections.map sectionCombined).flatten
    let reasoning :=
      match reasoningSearch content with
      | some r => r
      | none => lastSectionReasoning sections
    let code_output := pyStrip (pyJoin "\n" combined_code)
    if code_output = "" then
      .error "Implementation agent produced empty code despite having file markers"
    else
      .ok (code_output, reasoning)
  else
    let pr := base_parse_response content
    let code := pr.1
    let reasoning := pr.2
    if pyStrip code ≠ "" then
      let file_extension := sniffExtension code
      .ok ("# File: index." ++ file_extension ++ "\n" ++ code, reasoning)
    else
      .ok (code, reasoning)

/-! ## File-map decomposition (ImplementationAgent._parse_code_to_files) -/

/-- Marker recognition for _parse_code_to_files, whose regex additionally
allows a slash-star comment prefix and an optional trailing star-slash
(with optional whitespace before it); it is applied to the stripped line.
The lazy capture group excludes one trailing star-slash and the whitespace
run before it whenever what remains is nonempty; when the remainder after
file: consists solely of a star-slash (possibly after whitespace) the
backtracking described in the regex yields the corner values modelled in
the final branches.  The caller strips the captured name. -/
def markerName2? (line : String) : Option String :=
  let cs := line.data
  let rest? : Option (List Char) :=
    if charsPrefixOf ['/', '/'] cs then some (cs.drop 2)
    else if charsPrefixOf ['#'] cs then some (cs.drop 1)
    else if charsPrefixOf ['/', '*'] cs then some (cs.drop 2)
    else none
  match rest? with
  | none => none
  | some cs1 =>
    let cs2 := cs1.dropWhile isPySpace
    if charsPrefixOf ['f', 'i', 'l', 'e', ':'] cs2 ||
       charsPrefixOf ['F', 'i', 'l', 'e', ':'] cs2 then
      let tail := cs2.drop 5
      if tail.isEmpty then none
      else if charsPrefixOf ['/', '*'] tail.reverse then
        let core := (tail.reverse.drop 2).dropWhile isPySpace
        if core.isEmpty then
          if tail.length = 2 then some (pyStrip ⟨tail⟩) else some ""
        else some (pyStrip ⟨core.reverse⟩)
      else some (pyStrip ⟨tail⟩)
    else none

/-- Ordered file map: Python dicts preserve insertion order, so a file map is
an association list of path-content pairs with distinct keys. -/
abbrev FileMap := List (String × String)

/-- Key membership in a file map (Python: path in files). -/
def fmHasKey (files : FileMap) (k : String) : Bool :=
  files.any (fun p => p.1 == k)

/-- Python dict assignment files[k] = v: update in place when the key exists,
else append. -/
def fmInsert (files : FileMap) (k v : String) : FileMap :=
  if fmHasKey files k then
    files.map (fun p => if p.1 == k then (k, v) else p)
  else files ++ [(k, v)]

/-- Closing step of the file-extraction walk: save the pending file when a
file name is present and nonempty (Python truthiness of current_file), the
collected lines are nonempty, and their stripped join is nonempty. -/
def saveCurrent (files : FileMap) (current_file : Option String)
    (current_content : List String) : FileMap :=
  match current_file with
  | none => files
  | some f =>
    if f = "" then files
    else if current_content.isEmpty then files
    else
      let content := pyStrip (pyJoin "\n" current_content)
      if content = "" then files else fmInsert files f content

/-- Line walk of _parse_code_to_files. -/
def parseFilesGo (files : FileMap) (current_file : Option String)
    (current_content : List String) : List String → FileMap
  | [] => saveCurrent files current_file current_content
  | l :: ls =>
    match markerName2? (pyStrip l) with
    | some name =>
      parseFilesGo (saveCurrent files current_file current_content) (some name) [] ls
    | none =>
      match current_file with
      | some f =>
        if f = "" then parseFilesGo files current_file current_content ls
        else parseFilesGo files current_file (current_content ++ [l]) ls
      | none => parseFilesGo files current_file current_content ls

/-- Post-processing of suspicious paths: an absolute path (leading slash, or
a drive letter at index 1) is popped and re-inserted under the cleaned key,
obtained by stripping leading slashes, dropping everything through the first
colon, and stripping leading slashes again. -/
def fixPath (files : FileMap) (entry : String × String) : FileMap :=
  let filepath := entry.1
  let isAbs :=
    pyStartsWith "/" filepath ||
    (filepath.data.length > 1 && ((filepath.data[1]?).getD ' ') == ':')
  if isAbs then
    let step1 := pyLStripChars ['/'] filepath
    let afterColon : String :=
      match findSubIdx [':'] step1.data with
      | some i => ⟨step1.data.drop (i + 1)⟩
      | none => step1
    let filepath_clean := pyLStripChars ['/'] afterColon
    fmInsert (files.filter (fun p => p.1 != filepath)) filepath_clean entry.2
  else files

/-- ImplementationAgent._parse_code_to_files: decompose a normalized blob
into a file map, or fail (ValueError) when no file is extracted.  The Python
split(c, 1)[-1] keeps everything after the first colon, or the whole string
when no colon occurs. -/
def parse_code_to_files (code : String) : Except String FileMap :=
  let lines := pySplitStr "\n" code
  let files := parseFilesGo [] none [] lines
  if files.isEmpty then
    .error "File parsing failed - no files extracted from implementation output"
  else
    .ok (files.foldl fixPath files)

/-! ## Import patterns (ImplementationAgent._validate_file_imports) -/

/-- Quote character class of the import regexes (double or single quote). -/
def isQuote (c : Char) : Bool := c == '"' || c.toNat == 39

/-- Take characters up to the first quote: the lazy capture between quotes,
which must be nonempty and, because the dot atom never crosses lines, must
not contain a newline.  Returns the capture and the rest after the closing
quote. -/
def captureToQuote (l : List Char) : Option (String × List Char) :=
  match l with
  | [] => none
  | c :: t =>
    if isQuote c || c == '\n' then none
    else
      match findSubIdxQuote t with
      | none => none
      | some i =>
        let cap := c :: t.take i
        if cap.any (· == '\n') then none
        else some (⟨cap⟩, t.drop (i + 1))
where
  findSubIdxQuote : List Char → Option Nat
    | [] => none
    | c :: t =>
      if isQuote c then some 0
      else (findSubIdxQuote t).map (· + 1)

/-- Does the segment before the literal from admit the regex decomposition
whitespace-run, dot-run, whitespace-run (each nonempty, the middle free of
newlines)?  Checked by brute force over the split points. -/
def validPreFrom (seg : List Char) : Bool :=
  decide (3 ≤ seg.length) &&
  (List.range seg.length).any (fun a =>
    (List.range seg.length).any (fun b =>
      decide (1 ≤ a) && decide (a ≤ b) && decide (b ≤ seg.length - 2) &&
      (seg.take a).all isPySpace &&
      ((seg.drop a).take (b - a + 1)).all (fun c => !(c == '\n')) &&
      (seg.drop (b + 1)).all isPySpace))

/-- After the literal from of the ES-import pattern: a nonempty whitespace
run, an opening quote, and the capture. -/
def matchFromTail (l : List Char) : Option (String × List Char) :=
  let w := (l.takeWhile isPySpace).length
  if w = 0 then none
  else
    match l.drop w with
    | [] => none
    | q :: t => if isQuote q then captureToQuote t else none

/-- Scan for the earliest occurrence of from with a valid preceding segment
and a matching tail, mirroring the lazy middle of the ES-import regex: seg
accumulates the characters already passed over. -/
def matchImportFrom (seg : List Char) : List Char → Option (String × List Char)
  | [] => none
  | c :: t =>
    if charsPrefixOf ['f', 'r', 'o', 'm'] (c :: t) && validPreFrom seg then
      match matchFromTail ((c :: t).drop 4) with
      | some r => some r
      | none => matchImportFrom (seg ++ [c]) t
    else matchImportFrom (seg ++ [c]) t

/-- Matcher for the ES-import pattern import backslash-s plus dot-plus-lazy
backslash-s plus from backslash-s plus quote capture quote, anchored at the
current position. -/
def importMatcher (l : List Char) : Option (String × List Char) :=
  if charsPrefixOf ['i', 'm', 'p', 'o', 'r', 't'] l then
    let r := l.drop 6
    match r with
    | [] => none
    | c :: _ => if isPySpace c then matchImportFrom [] r else none
  else none

/-- Matcher for require(open-paren quote capture quote close-paren) with
optional whitespace before the opening parenthesis. -/
def requireMatcher (l : List Char) : Option (String × List Char) :=
  if charsPrefixOf ['r', 'e', 'q', 'u', 'i', 'r', 'e'] l then
    let r := (l.drop 7).dropWhile isPySpace
    match r with
    | '(' :: t =>
      match t with
      | q :: t2 =>
        if isQuote q then
          match captureToQuote t2 with
          | some (cap, rest) =>
            match rest with
            | ')' :: rest2 => some (cap, rest2)
            | _ => none
          | none => none
        else none
      | [] => none
    | _ => none
  else none

/-- Matcher for the CSS at-import pattern with a nonempty whitespace run
before the quoted capture. -/
def atImportMatcher (l : List Char) : Option (String × List Char) :=
  if charsPrefixOf ['@', 'i', 'm', 'p', 'o', 'r', 't'] l then
    let r := l.drop 7
    let w := (r.takeWhile isPySpace).length
    if w = 0 then none
    else
      match r.drop w with
      | q :: t => if isQuote q then captureToQuote t else none
      | [] => none
  else none

/-- Validity of the segment between the leading dot and the literal import in
the Python relative-import pattern: a nonempty newline-free capture followed
by a nonempty whitespace run.  The capture is maximal up to the whitespace
run (greedy backtracking keeps whitespace out of the tail only as needed). -/
def splitCapWs (seg : List Char) : Option (List Char) :=
  let wsTail := (seg.reverse.takeWhile isPySpace).length
  let cap := seg.take (seg.length - wsTail)
  if wsTail = 0 then none
  else if cap.isEmpty then none
  else if cap.any (· == '\n') then none
  else some cap

/-- Scan for the earliest import keyword closing the Python relative-import
pattern from backslash-s plus dot capture backslash-s plus import. -/
def matchPyImportEnd (seg : List Char) : List Char → Option (String × List Char)
  | [] => none
  | c :: t =>
    if charsPrefixOf ['i', 'm', 'p', 'o', 'r', 't'] (c :: t) then
      match splitCapWs seg with
      | some cap => some (⟨cap⟩, (c :: t).drop 6)
      | none => matchPyImportEnd (seg ++ [c]) t
    else matchPyImportEnd (seg ++ [c]) t

/-- Matcher for the Python relative-import pattern anchored at the current
position. -/
def pyFromMatcher (l : List Char) : Option (String × List Char) :=
  if charsPrefixOf ['f', 'r', 'o', 'm'] l then
    let r := l.drop 4
    let w := (r.takeWhile isPySpace).length
    if w = 0 then none
    else
      match r.drop w with
      | '.' :: t => matchPyImportEnd [] t
      | _ => none
  else none

/-- Matcher for href or src, optional whitespace, equals sign, optional
whitespace, then the quoted capture. -/
def hrefSrcMatcher (l : List Char) : Option (String × List Char) :=
  let afterKw : Option (List Char) :=
    if charsPrefixOf ['h', 'r', 'e', 'f'] l then some (l.drop 4)
    else if charsPrefixOf ['s', 'r', 'c'] l then some (l.drop 3)
    else none
  match afterKw with
  | none => none
  | some r =>
    let r1 := r.dropWhile isPySpace
    match r1 with
    | '=' :: t =>
      let t1 := t.dropWhile isPySpace
      match t1 with
      | q :: t2 => if isQuote q then captureToQuote t2 else none
      | [] => none
    | _ => none

/-- re.findall over the content: try the matcher at every position from left
to right, resume after each match (non-overlapping), and collect the
captures.  The fuel is the length of the remaining input, which bounds the
number of steps because every step drops at least one character. -/
def scanAll (matcher : List Char → Option (String × List Char)) :
    Nat → List Char → List String
  | 0, _ => []
  | _ + 1, [] => []
  | fuel + 1, c :: t =>
    match matcher (c :: t) with
    | some (cap, rest) => cap :: scanAll matcher fuel rest
    | none => scanAll matcher fuel t

/-- All captures of one import pattern in a file content. -/
def findAllCaptures (matcher : List Char → Option (String × List Char))
    (content : String) : List String :=
  scanAll matcher content.data.length content.data

/-- The five import patterns, in source order. -/
def import_pattern_matchers : List (List Char → Option (String × List Char)) :=
  [importMatcher, requireMatcher, atImportMatcher, pyFromMatcher, hrefSrcMatcher]

/-! ## Reference validation (ImplementationAgent._validate_file_imports) -/

/-- Substrings whose presence marks an import as external and skipped. -/
def skip_markers : List String :=
  ["http://", "https://", "node_modules", "@/",
   "react", "vue", "next", "vite", "express"]

/-- Python os.path.normpath on a relative forward-slash path: drop empty and
single-dot components, cancel a parent-dot component against a preceding
normal component, and render the empty result as a single dot. -/
def normpathComponents (comps : List String) : List String :=
  comps.foldl
    (fun stack comp =>
      if comp = ".." then
        match stack.getLast? with
        | some last => if last = ".." then stack ++ [comp] else stack.dropLast
        | none => stack ++ [comp]
      else stack ++ [comp])
    []

/-- Python os.path.normpath for the relative paths produced here. -/
def pyNormpath (p : String) : String :=
  let comps := (pySplitStr "/" p).filter (fun c => c ≠ "" && c ≠ ".")
  let result := pyJoin "/" (normpathComponents comps)
  if result = "" then "." else result

/-- Python os.path.join for the two-argument uses here: an absolute second
path wins; an empty first path yields the second; otherwise the parts are
joined with a slash. -/
def pyPathJoin (a b : String) : String :=
  if pyStartsWith "/" b then b
  else if a = "" then b
  else if pyEndsWith "/" a then a ++ b
  else a ++ "/" ++ b

/-- Replace backslashes by forward slashes (path separator normalization). -/
def normalizeSeps (s : String) : String :=
  ⟨s.data.map (fun c => if c == '\\' then '/' else c)⟩

/-- Conventional suffix and index variants tried when the import path has
none of the known extensions. -/
def possiblePathsFor (full_path : String) : List String :=
  if [".js", ".jsx", ".ts", ".tsx", ".css", ".py"].any
      (fun ext => pyEndsWith ext full_path) then
    [full_path]
  else
    [full_path,
     full_path ++ ".js", full_path ++ ".jsx",
     full_path ++ ".ts", full_path ++ ".tsx",
     full_path ++ "/index.js", full_path ++ "/index.jsx"]

/-- Existence test of one candidate path against the file map: the exact
normalized path, the src-prefixed path, and the variants with leading
dot-slash characters or leading src-slash characters stripped. -/
def candidateFound (files : FileMap) (possible_path : String) : Bool :=
  let normalized_path := normalizeSeps possible_path
  if fmHasKey files normalized_path || fmHasKey files ("src/" ++ normalized_path) then
    true
  else
    [pyLStripChars ['.', '/'] normalized_path,
     pyLStripChars ['s', 'r', 'c', '/'] normalized_path,
     "src/" ++ pyLStripChars ['.', '/'] normalized_path].any (fmHasKey files)

/-- Decide whether one extracted import path of one source file is missing,
following the skip, resolve, variant and report logic of the source. -/
def importMissing (files : FileMap) (source_file source_dir import_path : String) :
    Bool :=
  if skip_markers.any (fun sk => pyIn sk import_path) then false
  else if !(pyStartsWith "." import_path) && !(pyStartsWith "/" import_path) &&
          !(pyEndsWith ".html" source_file && !(pyStartsWith "http" import_path)) then
    false
  else
    let full_path :=
      if pyStartsWith "./" import_path || pyStartsWith "../" import_path then
        if source_dir ≠ "" then pyNormpath (pyPathJoin source_dir import_path)
        else pyLStripChars ['.', '/'] import_path
      else import_path
    let found := (possiblePathsFor full_path).any (candidateFound files)
    if found then false
    else
      pyStartsWith "." import_path ||
      (pyEndsWith ".html" source_file && !(pyStartsWith "http" import_path) &&
       [".css", ".js", ".png", ".jpg", ".svg"].any
         (fun ext => pyEndsWith ext import_path))

/-- ImplementationAgent._validate_file_imports: the list of
(source file, missing import) pairs over all files and patterns, in
iteration order. -/
def validate_file_imports (files : FileMap) : List (String × String) :=
  files.foldl
    (fun missing entry =>
      let source_file := entry.1
      let content := entry.2
      let source_dir := if pyIn "/" source_file then pyDirname source_file else ""
      import_pattern_matchers.foldl
        (fun missing matcher =>
          (findAllCaptures matcher content).foldl
            (fun missing import_path =>
              if importMissing files source_file source_dir import_path then
                missing ++ [(source_file, import_path)]
              else missing)
            missing)
        missing)
    []

/-- Composition the validation scenarios describe: parse a raw completion
with the implementation parser, decompose the code into a file map, and run
the reference validation, propagating the ValueError cases. -/
def parse_and_validate (raw : String) : Except String (List (String × String)) := do
  let pr ← impl_parse_response raw
  let files ← parse_code_to_files pr.1
  pure (validate_file_imports files)

/-! ## Completeness check (File Validator, spec 4.4 step 3) -/

/-- ValidationOutcome of the File Validator. -/
inductive ValidationOutcome where
  | ok
  | missingFileReferences (refs : List (String × String))
  | missingRequiredFiles (paths : List String)
  | parseFailure (reason : String)
deriving DecidableEq, Repr

/-- Project archetypes distinguished by the completeness check. -/
inductive Archetype where
  | nextAppRouter
  | nextPagesRouter
  | vite
  | express
  | staticHtml
  | python
deriving DecidableEq, Repr

/-- Modelled from the spec: the File Validator completeness check of spec
section 4.4 step 3 has no implementation under src (only its consumer, the
missing-required-files branch of the improvement prompt in base_agent.py,
appears there).  Archetype detection from the file-map keys and content:
Next.js app router or pages router, Vite, Express, static HTML, Python. -/
def detectArchetype (files : FileMap) : Archetype :=
  let packageJson :=
    match files.find? (fun p => p.1 == "package.json") with
    | some p => pyLower p.2
    | none => ""
  if pyIn "next" packageJson then
    if files.any (fun p => pyStartsWith "pages/" p.1) then .nextPagesRouter
    else .nextAppRouter
  else if pyIn "vite" packageJson then .vite
  else if pyIn "express" packageJson then .express
  else if files.any (fun p => pyEndsWith ".py" p.1) then .python
  else .staticHtml

/-- Modelled from the spec: the minimum entry-point files required by each
archetype, where an either-or entry point is reported under its spec name.
Vite requires index.html and one of src/main.tsx or src/main.jsx; the
Next.js app router requires app/page and app/layout files. -/
def requiredFilesMissing (files : FileMap) : Archetype → List String
  | .vite =>
    (if fmHasKey files "index.html" then [] else ["index.html"]) ++
    (if fmHasKey files "src/main.tsx" || fmHasKey files "src/main.jsx" then []
     else ["src/main.*"])
  | .nextAppRouter =>
    (if files.any (fun p => pyStartsWith "app/page." p.1) then [] else ["app/page.*"]) ++
    (if files.any (fun p => pyStartsWith "app/layout." p.1) then []
     else ["app/layout.*"])
  | .nextPagesRouter =>
    if files.any (fun p => pyStartsWith "pages/index." p.1) then []
    else ["pages/index.*"]
  | .express =>
    if fmHasKey files "server.js" || fmHasKey files "index.js" then []
    else ["server.js or index.js"]
  | .staticHtml =>
    if files.any (fun p => pyEndsWith ".html" p.1) then [] else ["index.html"]
  | .python => []

/-- Modelled from the spec: the completeness check returns
MissingRequiredFiles with the absent entry points of the detected archetype,
or Ok when none is absent. -/
def check_completeness (files : FileMap) : ValidationOutcome :=
  match requiredFilesMissing files (detectArchetype files) with
  | [] => .ok
  | missing => .missingRequiredFiles missing

/-! ## Agent execution loops (BaseAgent.execute, ImplementationAgent.execute) -/

/-- The base confidence constant 0.85 of both execute loops, given as an
explicitly reduced rational so that concrete runs evaluate in the kernel. -/
def conf085 : ℚ := ⟨17, 20, by decide, by decide⟩

/-- AgentOutput dataclass of base_agent.py.  The latency field is wall-clock
time and never influences control flow, so it is not modelled. -/
structure AgentOutput where
  agent_name : String
  code : String
  reasoning : String
  confidence : ℚ
  model_used : String
  galileo_score : Option ℚ := none
  iterations : Nat := 1
  parsed_files : Option FileMap := none
deriving DecidableEq, Repr

/-- Exceptions that can escape an execute call (all ValueError in the source,
except the unbound-local case, which is an UnboundLocalError). -/
inductive ExecErr where
  | emptyCode (agent : String) (max_iterations : Nat)
  | unparseable (msg : String) (max_iterations : Nat)
  | parserRaise (msg : String)
  | unboundLocal
deriving DecidableEq, Repr

/-- Result of one execute call: a returned AgentOutput, the implicit None
return reached by falling off the function body, a raised exception, or fuel
exhaustion of the model (never reached with the fuel supplied by the
wrappers). -/
inductive ExecResult where
  | output (o : AgentOutput)
  | noOutput
  | error (e : ExecErr)
  | outOfFuel
deriving DecidableEq, Repr

/-- Outcome of one while-body iteration: a final result or a continuation
state. -/
inductive StepOut (σ : Type) where
  | done (r : ExecResult)
  | cont (st : σ)
deriving Repr

/-- Mutable local state of BaseAgent.execute across while-body iterations.
The iteration field holds the count of completed iterations for the current
model; call_idx counts completion-provider calls (the oracle index).  The
last_code and last_reasoning locals only feed prompt text, which is
immaterial because the provider is an oracle over the call index, but they
are tracked for fidelity. -/
structure BaseState where
  iteration : Nat
  model_attempt_number : Nat
  model : String
  best_output : Option AgentOutput
  best_score : ℚ
  first_iteration_score : ℚ
  last_code : String
  last_reasoning : String
  call_idx : Nat
deriving Repr

/-- Closing block of the base while body (the max-iteration check with the
fallback decision, base_agent.py lines 309 to 372).  Returns either the
final result of execute or the continuation state. -/
def baseMaxCheck (task_type : TaskType) (threshold : ℚ) (maxIter : Nat)
    (enableFallback : Bool) (st : BaseState) (iter : Nat) (output : AgentOutput) :
    StepOut BaseState :=
  if iter ≥ maxIter then
    let validation_failed : Bool :=
      match st.best_output with
      | some b => b.parsed_files.isNone
      | none => false
    if enableFallback && (decide (st.best_score < threshold) || validation_failed) then
      let score_improvement := st.best_score - st.first_iteration_score
      if should_fallback (iter : Int) (maxIter : Int) st.best_score threshold
          score_improvement then
        match get_next_model st.model task_type iter with
        | some next_model =>
          if next_model ≠ st.model then
            .cont { st with
                    model := next_model,
                    model_attempt_number := st.model_attempt_number + 1,
                    iteration := 0, first_iteration_score := 0 }
          else .done (.output (st.best_output.getD output))
        | none => .done (.output (st.best_output.getD output))
      else .done (.output (st.best_output.getD output))
    else .done (.output (st.best_output.getD output))
  else .cont { st with iteration := iter }

/-- One iteration of the while body of BaseAgent.execute.  The validation
hook always passes for the agents built on this loop: no agent overrides
_validate_output (the base implementation returns None) and nothing ever
assigns _parsed_files, so the validation-failure branch is dead and every
constructed output carries parsed_files = none. -/
def baseIterStep (agent_name : String) (task_type : TaskType) (threshold : ℚ)
    (maxIter : Nat) (enableFallback : Bool) (provider : Nat → String)
    (evaluator : Option (Nat → Option ℚ)) (st : BaseState) : StepOut BaseState :=
  let iter := st.iteration + 1
  let content := provider st.call_idx
  let pr := base_parse_response content
  let code := pr.1
  let reasoning := pr.2
  let st1 := { st with
               call_idx := st.call_idx + 1,
               last_code := code, last_reasoning := reasoning }
  if pyStrip code = "" then
    if iter ≥ maxIter && enableFallback then
      -- the source records a zero-confidence temp output and breaks out of
      -- the while loop; nothing follows the loop, so execute returns None
      .done .noOutput
    else if iter ≥ maxIter then
      .done (.error (.emptyCode agent_name maxIter))
    else .cont { st1 with iteration := iter }
  else
    let output0 : AgentOutput :=
      { agent_name := agent_name, code := code, reasoning := reasoning,
        confidence := conf085, model_used := st.model, iterations := iter,
        parsed_files := none }
    match evaluator with
    | none => .done (.output { output0 with galileo_score := some 85 })
    | some eval =>
      match eval st.call_idx with
      | none =>
        -- evaluator raised: default score, no best update, no threshold check
        let output := { output0 with galileo_score := some 85 }
        baseMaxCheck task_type threshold maxIter enableFallback st1 iter output
      | some score =>
        let output := { output0 with galileo_score := some score }
        let st2 := { st1 with first_iteration_score :=
                      if iter = 1 then score else st1.first_iteration_score }
        let st3 :=
          if score > st2.best_score then
            { st2 with best_score := score, best_output := some output }
          else st2
        if score ≥ threshold then .done (.output output)
        else baseMaxCheck task_type threshold maxIter enableFallback st3 iter output

/-- The while loop of BaseAgent.execute, with fuel bounding the number of
body entries.  Falling out of the while loop reaches the end of the function
body, which returns None. -/
def baseLoop (agent_name : String) (task_type : TaskType) (threshold : ℚ)
    (maxIter : Nat) (enableFallback : Bool) (provider : Nat → String)
    (evaluator : Option (Nat → Option ℚ)) : Nat → BaseState → ExecResult
  | 0, _ => .outOfFuel
  | fuel + 1, st =>
    if st.iteration < maxIter ∧ st.model_attempt_number ≤ 3 then
      match baseIterStep agent_name task_type threshold maxIter enableFallback
          provider evaluator st with
      | .done r => r
      | .cont st2 =>
        baseLoop agent_name task_type threshold maxIter enableFallback provider
          evaluator fuel st2
    else .noOutput

/-- BaseAgent.execute.  At most three model attempts of at most maxIter
iterations each can enter the body, so the supplied fuel is never exhausted. -/
def base_execute (agent_name model task : String) (threshold : ℚ) (maxIter : Nat)
    (enableFallback : Bool) (provider : Nat → String)
    (evaluator : Option (Nat → Option ℚ)) : ExecResult :=
  let task_type := detect_task_type task
  baseLoop agent_name task_type threshold maxIter enableFallback provider evaluator
    (3 * maxIter + 1)
    { iteration := 0, model_attempt_number := 1, model := model,
      best_output := none, best_score := 0, first_iteration_score := 0,
      last_code := "", last_reasoning := "", call_idx := 0 }

/-- Mutable local state of ImplementationAgent.execute.  The last_output
field models the Python local variable output, which survives across
iterations and is consulted by the final return statement; the
_last_validation_error attribute only feeds prompt text and is immaterial
to the oracle-indexed provider. -/
structure ImplState where
  iteration : Nat
  best_output : Option AgentOutput
  best_score : ℚ
  last_output : Option AgentOutput
  call_idx : Nat
deriving Repr

/-- One iteration of the while body of ImplementationAgent.execute.  The
parser ValueError propagates uncaught (the _parse_response call sits outside
the try block); parse_code_to_files errors are caught by the except handler;
the missing-files raise at the iteration cap sits inside the try block, so
its own except handler catches it and re-raises the unparseable-code error. -/
def implIterStep (model : String) (threshold : ℚ) (maxIter : Nat)
    (provider : String → Nat → String) (evaluator : Option (Nat → Option ℚ))
    (st : ImplState) : StepOut ImplState :=
  let iter := st.iteration + 1
  let content := provider model st.call_idx
  match impl_parse_response content with
  | .error e => .done (.error (.parserRaise e))
  | .ok pr =>
    let code := pr.1
    let reasoning := pr.2
    let st1 := { st with call_idx := st.call_idx + 1 }
    if pyStrip code = "" then
      if iter ≥ maxIter then .done (.error (.emptyCode "implementation" maxIter))
      else .cont { st1 with iteration := iter }
    else
      match parse_code_to_files code with
      | .error e =>
        if iter ≥ maxIter then .done (.error (.unparseable e maxIter))
        else .cont { st1 with iteration := iter }
      | .ok parsed_files =>
        let missing := validate_file_imports parsed_files
        if missing ≠ [] then
          if iter ≥ maxIter then
            .done (.error (.unparseable
              ("Implementation generated incomplete code after " ++
               toString maxIter ++ " attempts") maxIter))
          else .cont { st1 with iteration := iter }
        else
          let output0 : AgentOutput :=
            { agent_name := "implementation", code := code,
              reasoning := reasoning, confidence := conf085,
              model_used := model, iterations := iter,
              parsed_files := some parsed_files }
          match evaluator with
          | none => .done (.output { output0 with galileo_score := some 85 })
          | some eval =>
            match eval st.call_idx with
            | none =>
              .cont { st1 with
                      iteration := iter,
                      last_output := some { output0 with galileo_score := some 85 } }
            | some score =>
              let output := { output0 with galileo_score := some score }
              let st2 :=
                if score > st1.best_score then
                  { st1 with best_score := score, best_output := some output }
                else st1
              if score ≥ threshold then .done (.output output)
              else .cont { st2 with iteration := iter, last_output := some output }

/-- The while loop of ImplementationAgent.execute.  Falling out of the loop
returns best_output when truthy, else the local variable output, which is
unbound when no iteration ever constructed an output. -/
def implLoop (model : String) (threshold : ℚ) (maxIter : Nat)
    (provider : String → Nat → String) (evaluator : Option (Nat → Option ℚ)) :
    Nat → ImplState → ExecResult
  | 0, _ => .outOfFuel
  | fuel + 1, st =>
    if st.iteration < maxIter then
      match implIterStep model threshold maxIter provider evaluator st with
      | .done r => r
      | .cont st2 => implLoop model threshold maxIter provider evaluator fuel st2
    else
      match st.best_output with
      | some b => .output b
      | none =>
        match st.last_output with
        | some o => .output o
        | none => .error .unboundLocal

/-- The model hard-wired by ImplementationAgent.__init__. -/
def implementation_agent_model : String := "gpt-5-pro"

/-- ImplementationAgent.execute: the override performs no model fallback, so
the model passed at construction is used throughout.  Every continuation
increments the iteration count, so fuel maxIter plus one is never exhausted. -/
def impl_execute (model : String) (threshold : ℚ) (maxIter : Nat)
    (provider : String → Nat → String) (evaluator : Option (Nat → Option ℚ)) :
    ExecResult :=
  implLoop model threshold maxIter provider evaluator (maxIter + 1)
    { iteration := 0, best_output := none, best_score := 0,
      last_output := none, call_idx := 0 }

/-- Decidable equality on Except results, for evaluating concrete runs. -/
instance {e a : Type} [DecidableEq e] [DecidableEq a] : DecidableEq (Except e a) :=
  fun x y =>
  match x, y with
  | .ok v, .ok w => if h : v = w then .isTrue (by rw [h]) else .isFalse (by simp [h])
  | .error v, .error w =>
    if h : v = w then .isTrue (by rw [h]) else .isFalse (by simp [h])
  | .ok _, .error _ => .isFalse (by simp)
  | .error _, .ok _ => .isFalse (by simp)

/-- Projection of a field of the returned AgentOutput, for stating facts
about the outcome of a concrete run. -/
def outputField {a : Type} (r : ExecResult) (f : AgentOutput → a) : Option a :=
  match r with
  | .output o => some (f o)
  | _ => none

/-- The raw completion of validation scenario B: one file a.js whose body is
a bare side-effect import of ./missing. -/
def scenarioB_input : String := "// file: a.js\nimport './missing'\n"

/-- The scenario B completion with an ES import that carries a from clause. -/
def scenarioB_from_input : String := "// file: a.js\nimport x from './missing'\n"

/-- The scenario C file map: only package.json, whose content contains vite. -/
def scenarioC_files : FileMap := [("package.json", "vite")]

/-- Soundness property of an AgentOutput returned by the implementation
loop: it carries the construction model and validated parsed files obtained
from its own code. -/
def implGood (m : String) (o : AgentOutput) : Prop :=
  o.model_used = m ∧ ∃ files, o.parsed_files = some files ∧ files ≠ [] ∧
    parse_code_to_files o.code = .ok files ∧ validate_file_imports files = []

/-- Loop invariant of ImplementationAgent.execute: the tracked best and last
outputs are sound. -/
def implStInv (m : String) (st : ImplState) : Prop :=
  (∀ o, st.best_output = some o → implGood m o) ∧
  (∀ o, st.last_output = some o → implGood m o)

/-- Loop invariant of BaseAgent.execute: the tracked best output carries no
parsed files (nothing in the repository ever assigns _parsed_files). -/
def baseStInv (st : BaseState) : Prop :=
  ∀ o, st.best_output = some o → o.parsed_files = none

/-! ## Theorems -/

theorem should_fallback_iff (i m : Int) (b t s : ℚ) :
    should_fallback i m b t s = true ↔
      (i ≥ m ∧ b < t) ∨ (s < 0 ∧ i ≥ 2) ∨ (s < 1 ∧ i ≥ m - 1) := by
  unfold should_fallback
  split_ifs with h1 h2 h3
  · simp only [true_iff]
    exact Or.inl h1
  · simp only [true_iff]
    exact Or.inr (Or.inl h2)
  · simp only [true_iff]
    exact Or.inr (Or.inr h3)
  · simp only [false_iff]
    intro h
    rcases h with h | h | h
    exacts [h1 h, h2 h, h3 h]

/-- C8: should_fallback is monotonic in iterationsCompleted for fixed
maxIterations, scoreImprovement and bestScore strictly below the threshold:
once it returns true at i, it returns true at every later i. -/
theorem c8_should_fallback_monotone (maxIter i j : Int) (best thr imp : ℚ)
    (hbt : best < thr) (hij : i ≤ j)
    (h : should_fallback i maxIter best thr imp = true) :
    should_fallback j maxIter best thr imp = true := by
  rw [should_fallback_iff] at h ⊢
  rcases h with ⟨h1, h2⟩ | ⟨h1, h2⟩ | ⟨h1, h2⟩
  · exact Or.inl ⟨le_trans h1 hij, h2⟩
  · exact Or.inr (Or.inl ⟨h1, le_trans h2 hij⟩)
  · exact Or.inr (Or.inr ⟨h1, le_trans h2 hij⟩)

theorem c8_witness :
    (50 : ℚ) < 90 ∧ (3 : Int) ≤ 5 ∧
      should_fallback 3 3 50 90 0 = true ∧ should_fallback 5 3 50 90 0 = true :=
  ⟨by norm_num, by norm_num, by decide,
   c8_should_fallback_monotone 3 3 5 50 90 0 (by norm_num) (by norm_num) (by decide)⟩

theorem pyIndex_eq_none_of_not_mem (c : String) (l : List String) (h : c ∉ l) :
    pyIndex? c l = none := by
  induction l with
  | nil => rfl
  | cons a t ih =>
    simp only [List.mem_cons, not_or] at h
    simp only [pyIndex?]
    rw [if_neg (by simp only [beq_iff_eq]; exact fun hc => h.1 hc.symm), ih h.2]
    rfl

theorem pyIndex_append_first (c : String) (l₁ l₂ : List String) (h : c ∉ l₁) :
    pyIndex? c (l₁ ++ c :: l₂) = some l₁.length := by
  induction l₁ with
  | nil => simp [pyIndex?]
  | cons a t ih =>
    simp only [List.mem_cons, not_or] at h
    simp only [List.cons_append, pyIndex?, List.append_eq]
    rw [if_neg (by simp only [beq_iff_eq]; exact fun hc => h.1 hc.symm), ih h.2]
    rfl

/-- C6 counterexample: a current model absent from the category sequence
makes get_next_model return the first model of the sequence, not null as the
claim states. -/
theorem c6_counterexample :
    "unknown-model" ∉ get_model_sequence TaskType.WEB_FRONTEND ∧
      get_next_model "unknown-model" TaskType.WEB_FRONTEND 1 = some "gpt-5-pro" :=
  ⟨by decide, by decide⟩

/-- C6 amended: for every category and current model, get_next_model returns
the model immediately following the first occurrence of the current model in
the category sequence (hence null when the current model is last); when the
current model does not occur in the sequence at all, it restarts from the
beginning and returns the first model of the nonempty sequence rather than
null. -/
theorem c6_next_model (t : TaskType) (current : String) (n : Nat) :
    (current ∉ get_model_sequence t →
      get_next_model current t n = (get_model_sequence t).head?) ∧
    ((get_model_sequence t).head?.isSome = true) ∧
    (∀ l₁ l₂, get_model_sequence t = l₁ ++ current :: l₂ → current ∉ l₁ →
      get_next_model current t n = l₂.head?) := by
  refine ⟨fun h => ?_, ?_, fun l₁ l₂ hseq hnot => ?_⟩
  · simp only [get_next_model]
    rw [pyIndex_eq_none_of_not_mem current _ h]
  · cases t <;> rfl
  · simp only [get_next_model]
    rw [hseq, pyIndex_append_first current l₁ l₂ hnot]
    simp only [List.length_append, List.length_cons]
    by_cases hl : l₂ = []
    · subst hl
      simp
    · rw [if_pos (by cases l₂ with | nil => exact absurd rfl hl | cons a r => simp)]
      rw [List.getElem?_append_right (by omega)]
      cases l₂ with
      | nil => exact absurd rfl hl
      | cons a r => simp

theorem c6_witness :
    get_next_model "mystery-model" TaskType.BACKEND_API 2 = some "claude-opus-4.1" ∧
      get_next_model "gpt-5-pro" TaskType.BACKEND_API 2 = some "claude-sonnet-4.5" ∧
      get_next_model "claude-sonnet-4.5" TaskType.BACKEND_API 2 = none := by
  refine ⟨?_, ?_, ?_⟩
  · exact ((c6_next_model TaskType.BACKEND_API "mystery-model" 2).1 (by decide)).trans rfl
  · exact ((c6_next_model TaskType.BACKEND_API "gpt-5-pro" 2).2.2
      ["claude-opus-4.1"] ["claude-sonnet-4.5"] rfl (by decide)).trans rfl
  · exact ((c6_next_model TaskType.BACKEND_API "claude-sonnet-4.5" 2).2.2
      ["claude-opus-4.1", "gpt-5-pro"] [] rfl (by decide)).trans rfl

/-- C7: detect_task_type is a total function (hence deterministic), it agrees
with the specification-side first-hit-in-priority-order classifier, and it
returns GENERAL exactly when no category keyword occurs in the lowercased
task. -/
theorem c7_classify (task : String) :
    detect_task_type task = classifySpec task ∧
    (detect_task_type task = .GENERAL ↔
      ∀ p ∈ categoryChecks, keywordHit p.1 (pyLower task) = false) := by
  cases hw : keywordHit web_keywords (pyLower task) <;>
  cases hb : keywordHit backend_keywords (pyLower task) <;>
  cases hd : keywordHit ds_keywords (pyLower task) <;>
  cases hm : keywordHit mobile_keywords (pyLower task) <;>
  cases ho : keywordHit devops_keywords (pyLower task) <;>
  cases hq : keywordHit db_keywords (pyLower task) <;>
  simp [detect_task_type, classifySpec, categoryChecks, List.find?, hw, hb, hd, hm, ho, hq]

theorem c7_witness :
    detect_task_type "build me a website with an api" = TaskType.WEB_FRONTEND ∧
      detect_task_type "956fc3ee" = TaskType.GENERAL :=
  ⟨((c7_classify "build me a website with an api").1).trans (by decide),
   ((c7_classify "956fc3ee").2).mpr (by decide)⟩

/-- C3 (spec-modelled): on the file map holding only package.json with vite
in its content, the completeness check detects the Vite archetype and
returns MissingRequiredFiles listing index.html and the src/main entry
point, not Ok. -/
theorem c3_vite_completeness :
    check_completeness scenarioC_files =
      ValidationOutcome.missingRequiredFiles ["index.html", "src/main.*"] ∧
      check_completeness scenarioC_files ≠ ValidationOutcome.ok :=
  ⟨by decide, by decide⟩

/-- C4 counterexample: on the exact scenario B input the parse-then-validate
pipeline reports no missing reference at all (the Ok outcome), because the
ES-import pattern of the validator requires a from clause and no other
pattern matches a bare side-effect import; the claimed outcome
MissingFileReferences([(a.js, ./missing)]) therefore does not occur. -/
theorem c4_counterexample :
    parse_and_validate scenarioB_input = .ok [] ∧
      ([] : List (String × String)) ≠ [("a.js", "./missing")] :=
  ⟨by decide, by decide⟩

/-- C4 amended: the bare side-effect import of scenario B is invisible to
the reference check, which returns the Ok outcome with no missing
references; the variant carrying a from clause is detected and yields
exactly the missing reference (a.js, ./missing). -/
theorem c4_reference_check :
    parse_and_validate scenarioB_input = .ok [] ∧
      parse_and_validate scenarioB_from_input = .ok [("a.js", "./missing")] :=
  ⟨by decide, by decide⟩

/-- C5: in both execution loops, an iteration whose parsed output is
nonempty, passes validation and is scored at or above the threshold makes
execute return that very output immediately, carrying that score, the
current model and the current iteration count — independently of the
remaining fuel (no further iteration runs) and of what any later evaluator
or provider call would have returned. -/
theorem c5_first_threshold_wins :
    (∀ (agent_name : String) (task_type : TaskType) (threshold : ℚ) (maxIter : Nat)
       (enableFallback : Bool) (provider : Nat → String) (eval : Nat → Option ℚ)
       (st : BaseState) (score : ℚ) (fuel : Nat),
       st.iteration < maxIter → st.model_attempt_number ≤ 3 →
       pyStrip (base_parse_response (provider st.call_idx)).1 ≠ "" →
       eval st.call_idx = some score → score ≥ threshold →
       baseLoop agent_name task_type threshold maxIter enableFallback provider
         (some eval) (fuel + 1) st =
         .output { agent_name := agent_name,
                   code := (base_parse_response (provider st.call_idx)).1,
                   reasoning := (base_parse_response (provider st.call_idx)).2,
                   confidence := conf085, model_used := st.model,
                   galileo_score := some score, iterations := st.iteration + 1,
                   parsed_files := none }) ∧
    (∀ (model : String) (threshold : ℚ) (maxIter : Nat)
       (provider : String → Nat → String) (eval : Nat → Option ℚ)
       (st : ImplState) (score : ℚ) (code reasoning : String) (files : FileMap)
       (fuel : Nat),
       st.iteration < maxIter →
       impl_parse_response (provider model st.call_idx) = .ok (code, reasoning) →
       pyStrip code ≠ "" →
       parse_code_to_files code = .ok files →
       validate_file_imports files = [] →
       eval st.call_idx = some score → score ≥ threshold →
       implLoop model threshold maxIter provider (some eval) (fuel + 1) st =
         .output { agent_name := "implementation", code := code,
                   reasoning := reasoning, confidence := conf085,
                   model_used := model, galileo_score := some score,
                   iterations := st.iteration + 1, parsed_files := some files }) := by
  constructor
  · intro agent_name task_type threshold maxIter enableFallback provider eval st
      score fuel hiter hatt hcode heval hscore
    simp only [baseLoop]
    rw [if_pos ⟨hiter, hatt⟩]
    simp only [baseIterStep, heval, if_neg hcode, if_pos hscore]
  · intro model threshold maxIter provider eval st score code reasoning files fuel
      hiter hparse hcode hfiles hmiss heval hscore
    simp only [implLoop]
    rw [if_pos hiter]
    simp only [implIterStep, hparse, heval, hfiles, hmiss, if_neg hcode,
      if_pos hscore]
    simp

theorem c5_witness :
    baseLoop "architecture" TaskType.GENERAL 90 3 true
      (fun _ => "```\ncode here\n```\ngood") (some (fun _ => some 95)) 10
      ⟨0, 1, "claude-sonnet-4.5", none, 0, 0, "", "", 0⟩ =
      .output { agent_name := "architecture", code := "code here",
                reasoning := "good", confidence := conf085,
                model_used := "claude-sonnet-4.5", galileo_score := some 95,
                iterations := 1, parsed_files := none } ∧
    implLoop "gpt-5-pro" 90 3
      (fun _ _ => "// file: index.html\n```html\n<p>hi</p>\n```\n")
      (some (fun _ => some 95)) 10 ⟨0, none, 0, none, 0⟩ =
      .output { agent_name := "implementation",
                code := "# File: index.html\n<p>hi</p>", reasoning := "",
                confidence := conf085, model_used := "gpt-5-pro",
                galileo_score := some 95, iterations := 1,
                parsed_files := some [("index.html", "<p>hi</p>")] } :=
  ⟨(c5_first_threshold_wins.1 "architecture" TaskType.GENERAL 90 3 true
      (fun _ => "```\ncode here\n```\ngood") (fun _ => some 95)
      ⟨0, 1, "claude-sonnet-4.5", none, 0, 0, "", "", 0⟩ 95 9
      (by decide) (by decide) (by decide) rfl (by decide)).trans (by decide),
   (c5_first_threshold_wins.2 "gpt-5-pro" 90 3
      (fun _ _ => "// file: index.html\n```html\n<p>hi</p>\n```\n")
      (fun _ => some 95) ⟨0, none, 0, none, 0⟩ 95
      "# File: index.html\n<p>hi</p>" "" [("index.html", "<p>hi</p>")] 9
      (by decide) (by decide) (by decide) (by decide) (by decide) rfl
      (by decide)).trans (by decide)⟩

theorem baseLoop_all_empty (agent_name : String) (task_type : TaskType)
    (threshold : ℚ) (maxIter : Nat) (fb : Bool) (provider : Nat → String)
    (evaluator : Option (Nat → Option ℚ))
    (hempty : ∀ i, pyStrip (base_parse_response (provider i)).1 = "") :
    ∀ fuel st, st.iteration < maxIter → st.model_attempt_number ≤ 3 →
      maxIter - st.iteration ≤ fuel →
      baseLoop agent_name task_type threshold maxIter fb provider evaluator fuel st =
        if fb then .noOutput else .error (.emptyCode agent_name maxIter) := by
  intro fuel
  induction fuel with
  | zero => intro st h1 _ h3; omega
  | succ fuel ih =>
    intro st h1 h2 h3
    simp only [baseLoop]
    rw [if_pos ⟨h1, h2⟩]
    simp only [baseIterStep]
    rw [if_pos (hempty st.call_idx)]
    by_cases hlast : st.iteration + 1 ≥ maxIter
    · cases fb <;> simp [hlast]
    · simp only [ge_iff_le] at hlast
      simp [hlast]
      exact ih _ (by simp; omega) h2 (by simp; omega)

/-- C1 amended: when every iteration of the only attempted model parses to
empty code, BaseAgent.execute raises the empty-code ValueError only when
model fallback is disabled; with fallback enabled (the default), the
empty-code branch on the last iteration breaks out of the while loop and
execute returns None instead of raising. -/
theorem c1_empty_code_exhaustion (agent_name model task : String) (threshold : ℚ)
    (maxIter : Nat) (provider : Nat → String) (evaluator : Option (Nat → Option ℚ))
    (hmax : 1 ≤ maxIter)
    (hempty : ∀ i, pyStrip (base_parse_response (provider i)).1 = "") :
    base_execute agent_name model task threshold maxIter true provider evaluator =
      ExecResult.noOutput ∧
    base_execute agent_name model task threshold maxIter false provider evaluator =
      ExecResult.error (.emptyCode agent_name maxIter) := by
  constructor
  · have h := baseLoop_all_empty agent_name (detect_task_type task) threshold
      maxIter true provider evaluator hempty (3 * maxIter + 1)
      { iteration := 0, model_attempt_number := 1, model := model,
        best_output := none, best_score := 0, first_iteration_score := 0,
        last_code := "", last_reasoning := "", call_idx := 0 }
      (by show 0 < maxIter; omega) (by show 1 ≤ 3; omega)
      (by show maxIter - 0 ≤ 3 * maxIter + 1; omega)
    simpa [base_execute] using h
  · have h := baseLoop_all_empty agent_name (detect_task_type task) threshold
      maxIter false provider evaluator hempty (3 * maxIter + 1)
      { iteration := 0, model_attempt_number := 1, model := model,
        best_output := none, best_score := 0, first_iteration_score := 0,
        last_code := "", last_reasoning := "", call_idx := 0 }
      (by show 0 < maxIter; omega) (by show 1 ≤ 3; omega)
      (by show maxIter - 0 ≤ 3 * maxIter + 1; omega)
    simpa [base_execute] using h

/-- C1 counterexample: with model fallback enabled (the default setting of
BaseAgent.execute), a provider returning code-free content on every
iteration makes execute break out of the while loop and fall off the end of
the function body, returning None — it raises no exception, contrary to the
claim. -/
theorem c1_counterexample :
    base_execute "architecture" "claude-sonnet-4.5" "build a website" 90 3 true
      (fun _ => "the model returned no fenced code") (some (fun _ => some 50)) =
      ExecResult.noOutput := by decide

theorem c1_witness :
    1 ≤ 3 ∧
    base_execute "architecture" "claude-sonnet-4.5" "a task" 90 3 true
      (fun _ => "no code here") none = ExecResult.noOutput ∧
    base_execute "architecture" "claude-sonnet-4.5" "a task" 90 3 false
      (fun _ => "no code here") none =
      ExecResult.error (.emptyCode "architecture" 3) :=
  ⟨by decide,
   (c1_empty_code_exhaustion "architecture" "claude-sonnet-4.5" "a task" 90 3
      (fun _ => "no code here") none (by decide)
      (fun _ => by show pyStrip (base_parse_response "no code here").1 = ""; decide)).1,
   (c1_empty_code_exhaustion "architecture" "claude-sonnet-4.5" "a task" 90 3
      (fun _ => "no code here") none (by decide)
      (fun _ => by show pyStrip (base_parse_response "no code here").1 = ""; decide)).2⟩

theorem fmInsert_ne_nil (l : FileMap) (k v : String) : fmInsert l k v ≠ [] := by
  unfold fmInsert
  split
  · rename_i hk
    cases l with
    | nil => simp [fmHasKey] at hk
    | cons a t => simp
  · simp

theorem fixPath_ne_nil (l : FileMap) (e : String × String) (h : l ≠ []) :
    fixPath l e ≠ [] := by
  simp only [fixPath]
  split
  · exact fmInsert_ne_nil _ _ _
  · exact h

theorem foldl_fixPath_ne_nil (snapshot : FileMap) :
    ∀ l : FileMap, l ≠ [] → snapshot.foldl fixPath l ≠ [] := by
  induction snapshot with
  | nil => intro l h; simpa using h
  | cons e t ih =>
    intro l h
    simpa using ih (fixPath l e) (fixPath_ne_nil l e h)

theorem parse_code_to_files_ok_ne_nil (code : String) (files : FileMap)
    (h : parse_code_to_files code = .ok files) : files ≠ [] := by
  simp only [parse_code_to_files] at h
  split at h
  · exact absurd h (by simp)
  · rename_i hne
    have : files = (parseFilesGo [] none [] (pySplitStr "\n" code)).foldl fixPath
        (parseFilesGo [] none [] (pySplitStr "\n" code)) := by
      simpa using h.symm
    rw [this]
    exact foldl_fixPath_ne_nil _ _ (by simpa using hne)

theorem implIterStep_done_output (m : String) (th : ℚ) (mi : Nat)
    (p : String → Nat → String) (e : Option (Nat → Option ℚ)) (st : ImplState)
    (o : AgentOutput) (h : implIterStep m th mi p e st = .done (.output o)) :
    implGood m o := by
  simp only [implIterStep] at h
  split at h
  · simp at h
  · split at h
    · split at h <;> simp at h
    · split at h
      · split at h <;> simp at h
      · rename_i parsed_files heq
        split at h
        · split at h <;> simp at h
        · rename_i hmiss
          split at h
          · simp only [StepOut.done.injEq, ExecResult.output.injEq] at h
            subst h
            exact ⟨rfl, parsed_files, rfl, parse_code_to_files_ok_ne_nil _ _ heq,
              heq, by simpa using hmiss⟩
          · split at h
            · simp at h
            · split at h
              · simp only [StepOut.done.injEq, ExecResult.output.injEq] at h
                subst h
                exact ⟨rfl, parsed_files, rfl, parse_code_to_files_ok_ne_nil _ _ heq,
                  heq, by simpa using hmiss⟩
              · simp at h

theorem implIterStep_cont_inv (m : String) (th : ℚ) (mi : Nat)
    (p : String → Nat → String) (e : Option (Nat → Option ℚ)) (st st' : ImplState)
    (h : implIterStep m th mi p e st = .cont st') (hinv : implStInv m st) :
    implStInv m st' := by
  simp only [implIterStep] at h
  split at h
  · simp at h
  · rename_i pr hpr
    split at h
    · split at h
      · simp at h
      · simp only [StepOut.cont.injEq] at h
        subst h
        exact ⟨hinv.1, hinv.2⟩
    · split at h
      · split at h
        · simp at h
        · simp only [StepOut.cont.injEq] at h
          subst h
          exact ⟨hinv.1, hinv.2⟩
      · rename_i parsed_files heq
        split at h
        · split at h
          · simp at h
          · simp only [StepOut.cont.injEq] at h
            subst h
            exact ⟨hinv.1, hinv.2⟩
        · rename_i hmiss
          split at h
          · simp at h
          · split at h
            · simp only [StepOut.cont.injEq] at h
              subst h
              refine ⟨hinv.1, fun o ho => ?_⟩
              simp only [Option.some.injEq] at ho
              subst ho
              exact ⟨rfl, parsed_files, rfl, parse_code_to_files_ok_ne_nil _ _ heq,
                heq, by simpa using hmiss⟩
            · split at h
              · simp at h
              · split at h
                · simp only [StepOut.cont.injEq] at h
                  subst h
                  refine ⟨fun o ho => ?_, fun o ho => ?_⟩ <;>
                    simp only [Option.some.injEq] at ho <;> subst ho <;>
                    exact ⟨rfl, parsed_files, rfl,
                      parse_code_to_files_ok_ne_nil _ _ heq, heq, by simpa using hmiss⟩
                · simp only [StepOut.cont.injEq] at h
                  subst h
                  refine ⟨hinv.1, fun o ho => ?_⟩
                  simp only [Option.some.injEq] at ho
                  subst ho
                  exact ⟨rfl, parsed_files, rfl,
                    parse_code_to_files_ok_ne_nil _ _ heq, heq, by simpa using hmiss⟩

theorem implLoop_output_good (m : String) (th : ℚ) (mi : Nat)
    (p : String → Nat → String) (e : Option (Nat → Option ℚ)) :
    ∀ (fuel : Nat) (st : ImplState) (o : AgentOutput), implStInv m st →
      implLoop m th mi p e fuel st = .output o → implGood m o := by
  intro fuel
  induction fuel with
  | zero => intro st o _ h; simp [implLoop] at h
  | succ fuel ih =>
    intro st o hinv h
    simp only [implLoop] at h
    split at h
    · cases hstep : implIterStep m th mi p e st with
      | done r =>
        rw [hstep] at h
        simp only at h
        subst h
        exact implIterStep_done_output m th mi p e st o hstep
      | cont st2 =>
        rw [hstep] at h
        simp only at h
        exact ih st2 o (implIterStep_cont_inv m th mi p e st st2 hstep hinv) h
    · split at h
      · simp only [ExecResult.output.injEq] at h
        subst h
        exact hinv.1 _ (by assumption)
      · split at h
        · simp only [ExecResult.output.injEq] at h
          subst h
          exact hinv.2 _ (by assumption)
        · simp at h

theorem implIterStep_provider_congr (m : String) (th : ℚ) (mi : Nat)
    (p q : String → Nat → String) (e : Option (Nat → Option ℚ)) (st : ImplState)
    (hpq : ∀ i, p m i = q m i) :
    implIterStep m th mi p e st = implIterStep m th mi q e st := by
  simp only [implIterStep, hpq st.call_idx]

theorem implLoop_provider_congr (m : String) (th : ℚ) (mi : Nat)
    (p q : String → Nat → String) (e : Option (Nat → Option ℚ))
    (hpq : ∀ i, p m i = q m i) :
    ∀ (fuel : Nat) (st : ImplState),
      implLoop m th mi p e fuel st = implLoop m th mi q e fuel st := by
  intro fuel
  induction fuel with
  | zero => intro st; rfl
  | succ fuel ih =>
    intro st
    simp only [implLoop]
    rw [implIterStep_provider_congr m th mi p q e st hpq]
    cases implIterStep m th mi q e st with
    | done r => rfl
    | cont st2 => simp only; split <;> [exact ih st2; rfl]

/-- C10: the implementation execute override performs no model fallback: a
run with the construction model gpt-5-pro depends only on the completions
requested from that one model (changing the provider on every other model
changes nothing), and every returned AgentOutput carries
model_used = gpt-5-pro. -/
theorem c10_no_model_fallback :
    (∀ (threshold : ℚ) (maxIter : Nat) (p q : String → Nat → String)
       (evaluator : Option (Nat → Option ℚ)),
       (∀ i, p implementation_agent_model i = q implementation_agent_model i) →
       impl_execute implementation_agent_model threshold maxIter p evaluator =
         impl_execute implementation_agent_model threshold maxIter q evaluator) ∧
    (∀ (threshold : ℚ) (maxIter : Nat) (provider : String → Nat → String)
       (evaluator : Option (Nat → Option ℚ)) (o : AgentOutput),
       impl_execute implementation_agent_model threshold maxIter provider evaluator =
         .output o → o.model_used = implementation_agent_model) := by
  constructor
  · intro threshold maxIter p q evaluator hpq
    unfold impl_execute
    exact implLoop_provider_congr _ threshold maxIter p q evaluator hpq _ _
  · intro threshold maxIter provider evaluator o h
    exact (implLoop_output_good implementation_agent_model threshold maxIter
      provider evaluator _ _ o ⟨fun _ h => by simp at h, fun _ h => by simp at h⟩
      h).1

theorem c10_witness :
    impl_execute implementation_agent_model 90 3
      (fun m i => if m = implementation_agent_model then
        "// file: index.html\n```html\n<p>hi</p>\n```\n" else "other") none =
      impl_execute implementation_agent_model 90 3
      (fun _ _ => "// file: index.html\n```html\n<p>hi</p>\n```\n") none ∧
    AgentOutput.model_used
      { agent_name := "implementation", code := "# File: index.html\n<p>hi</p>",
        reasoning := "", confidence := conf085,
        model_used := implementation_agent_model, galileo_score := some 85,
        iterations := 1, parsed_files := some [("index.html", "<p>hi</p>")] } =
      implementation_agent_model :=
  ⟨c10_no_model_fallback.1 90 3 _ _ none (fun i => by simp),
   c10_no_model_fallback.2 90 3
     (fun _ _ => "// file: index.html\n```html\n<p>hi</p>\n```\n") none _
     (by decide)⟩

theorem baseMaxCheck_done_eq (tt : TaskType) (th : ℚ) (mi : Nat) (fb : Bool)
    (st : BaseState) (iter : Nat) (output : AgentOutput) (r : ExecResult)
    (h : baseMaxCheck tt th mi fb st iter output = .done r) :
    r = .output (st.best_output.getD output) := by
  simp only [baseMaxCheck] at h
  split at h
  · split at h
    · split at h
      · split at h
        · split at h
          · simp at h
          · simp only [StepOut.done.injEq] at h
            exact h.symm
        · simp only [StepOut.done.injEq] at h
          exact h.symm
      · simp only [StepOut.done.injEq] at h
        exact h.symm
    · simp only [StepOut.done.injEq] at h
      exact h.symm
  · simp at h

theorem baseMaxCheck_cont_best (tt : TaskType) (th : ℚ) (mi : Nat) (fb : Bool)
    (st : BaseState) (iter : Nat) (output : AgentOutput) (st' : BaseState)
    (h : baseMaxCheck tt th mi fb st iter output = .cont st') :
    st'.best_output = st.best_output := by
  simp only [baseMaxCheck] at h
  split at h
  · split at h
    · split at h
      · split at h
        · split at h
          · simp only [StepOut.cont.injEq] at h
            subst h
            rfl
          · simp at h
        · simp at h
      · simp at h
    · simp at h
  · simp only [StepOut.cont.injEq] at h
    subst h
    rfl

theorem baseMaxCheck_done_output (tt : TaskType) (th : ℚ) (mi : Nat) (fb : Bool)
    (st : BaseState) (iter : Nat) (output : AgentOutput) (o : AgentOutput)
    (hst : baseStInv st) (hout : output.parsed_files = none)
    (h : baseMaxCheck tt th mi fb st iter output = .done (.output o)) :
    o.parsed_files = none := by
  have he := baseMaxCheck_done_eq tt th mi fb st iter output _ h
  simp only [ExecResult.output.injEq] at he
  subst he
  cases hb : st.best_output with
  | none => simpa [hb] using hout
  | some b => simpa [hb] using hst b hb

theorem baseIterStep_done_output (an : String) (tt : TaskType) (th : ℚ)
    (mi : Nat) (fb : Bool) (prov : Nat → String) (ev : Option (Nat → Option ℚ))
    (st : BaseState) (o : AgentOutput) (hst : baseStInv st)
    (h : baseIterStep an tt th mi fb prov ev st = .done (.output o)) :
    o.parsed_files = none := by
  simp only [baseIterStep] at h
  split at h
  · split at h
    · simp at h
    · split at h <;> simp at h
  · split at h
    · simp only [StepOut.done.injEq, ExecResult.output.injEq] at h
      subst h
      rfl
    · split at h
      · refine baseMaxCheck_done_output tt th mi fb _ _ _ o ?_ ?_ h
        · exact fun o' ho' => hst o' ho'
        · rfl
      · split at h
        · simp only [StepOut.done.injEq, ExecResult.output.injEq] at h
          subst h
          rfl
        · split at h
          · refine baseMaxCheck_done_output tt th mi fb _ _ _ o ?_ ?_ h
            · intro o' ho'
              simp only [Option.some.injEq] at ho'
              subst ho'
              rfl
            · rfl
          · refine baseMaxCheck_done_output tt th mi fb _ _ _ o ?_ ?_ h
            · exact fun o' ho' => hst o' ho'
            · rfl

theorem baseIterStep_cont_inv (an : String) (tt : TaskType) (th : ℚ)
    (mi : Nat) (fb : Bool) (prov : Nat → String) (ev : Option (Nat → Option ℚ))
    (st st' : BaseState) (hst : baseStInv st)
    (h : baseIterStep an tt th mi fb prov ev st = .cont st') : baseStInv st' := by
  simp only [baseIterStep] at h
  split at h
  · split at h
    · simp at h
    · split at h
      · simp at h
      · simp only [StepOut.cont.injEq] at h
        subst h
        exact hst
  · split at h
    · simp at h
    · split at h
      · have := baseMaxCheck_cont_best tt th mi fb _ _ _ _ h
        intro o ho
        rw [this] at ho
        exact hst o ho
      · split at h
        · simp at h
        · split at h
          · have := baseMaxCheck_cont_best tt th mi fb _ _ _ _ h
            intro o ho
            rw [this] at ho
            simp only [Option.some.injEq] at ho
            subst ho
            rfl
          · have := baseMaxCheck_cont_best tt th mi fb _ _ _ _ h
            intro o ho
            rw [this] at ho
            exact hst o ho

theorem baseLoop_output_none (an : String) (tt : TaskType) (th : ℚ) (mi : Nat)
    (fb : Bool) (prov : Nat → String) (ev : Option (Nat → Option ℚ)) :
    ∀ (fuel : Nat) (st : BaseState) (o : AgentOutput), baseStInv st →
      baseLoop an tt th mi fb prov ev fuel st = .output o →
      o.parsed_files = none := by
  intro fuel
  induction fuel with
  | zero => intro st o _ h; simp [baseLoop] at h
  | succ fuel ih =>
    intro st o hst h
    simp only [baseLoop] at h
    split at h
    · cases hstep : baseIterStep an tt th mi fb prov ev st with
      | done r =>
        rw [hstep] at h
        simp only at h
        subst h
        exact baseIterStep_done_output an tt th mi fb prov ev st o hst hstep
      | cont st2 =>
        rw [hstep] at h
        simp only at h
        exact ih st2 o (baseIterStep_cont_inv an tt th mi fb prov ev st st2 hst hstep) h
    · simp at h

/-- C2: an AgentOutput returned by the base execution loop (used by every
agent with no validation hook; nothing in the repository assigns the
_parsed_files attribute the loop reads) always carries parsed_files = none;
an AgentOutput returned by the implementation execute override always
carries parsed_files = some fileMap where the fileMap was parsed from that
very output's code into at least one file and passed the reference check
with an empty missing-import list.  In particular parsed_files is non-null
exactly on outputs that passed the implementation file validation, and an
iteration whose validation fails never yields the returned output. -/
theorem c2_parsed_files_iff_validated :
    (∀ (agent_name model task : String) (threshold : ℚ) (maxIter : Nat)
       (enableFallback : Bool) (provider : Nat → String)
       (evaluator : Option (Nat → Option ℚ)) (o : AgentOutput),
       base_execute agent_name model task threshold maxIter enableFallback provider
         evaluator = .output o → o.parsed_files = none) ∧
    (∀ (model : String) (threshold : ℚ) (maxIter : Nat)
       (provider : String → Nat → String) (evaluator : Option (Nat → Option ℚ))
       (o : AgentOutput),
       impl_execute model threshold maxIter provider evaluator = .output o →
       ∃ files, o.parsed_files = some files ∧ files ≠ [] ∧
         parse_code_to_files o.code = .ok files ∧
         validate_file_imports files = []) := by
  constructor
  · intro agent_name model task threshold maxIter enableFallback provider evaluator
      o h
    exact baseLoop_output_none agent_name (detect_task_type task) threshold maxIter
      enableFallback provider evaluator _ _ o (fun _ hb => by simp at hb) h
  · intro model threshold maxIter provider evaluator o h
    exact (implLoop_output_good model threshold maxIter provider evaluator _ _ o
      ⟨fun _ hb => by simp at hb, fun _ hb => by simp at hb⟩ h).2

theorem c2_witness :
    base_execute "architecture" "claude-sonnet-4.5" "a task" 90 3 true
      (fun _ => "```\ncode here\n```\nreason") none =
      .output { agent_name := "architecture", code := "code here",
                reasoning := "reason", confidence := conf085,
                model_used := "claude-sonnet-4.5", galileo_score := some 85,
                iterations := 1, parsed_files := none } ∧
    AgentOutput.parsed_files
      { agent_name := "architecture", code := "code here", reasoning := "reason",
        confidence := conf085, model_used := "claude-sonnet-4.5",
        galileo_score := some 85, iterations := 1, parsed_files := none } = none ∧
    impl_execute "gpt-5-pro" 90 3
      (fun _ _ => "// file: index.html\n```html\n<p>hi</p>\n```\n") none =
      .output { agent_name := "implementation",
                code := "# File: index.html\n<p>hi</p>", reasoning := "",
                confidence := conf085, model_used := "gpt-5-pro",
                galileo_score := some 85, iterations := 1,
                parsed_files := some [("index.html", "<p>hi</p>")] } ∧
    ∃ files,
      AgentOutput.parsed_files
        { agent_name := "implementation", code := "# File: index.html\n<p>hi</p>",
          reasoning := "", confidence := conf085, model_used := "gpt-5-pro",
          galileo_score := some 85, iterations := 1,
          parsed_files := some [("index.html", "<p>hi</p>")] } = some files ∧
      files ≠ [] ∧
      parse_code_to_files
        (AgentOutput.code
          { agent_name := "implementation",
            code := "# File: index.html\n<p>hi</p>", reasoning := "",
            confidence := conf085, model_used := "gpt-5-pro",
            galileo_score := some 85, iterations := 1,
            parsed_files := some [("index.html", "<p>hi</p>")] }) = .ok files ∧
      validate_file_imports files = [] :=
  ⟨by decide,
   c2_parsed_files_iff_validated.1 "architecture" "claude-sonnet-4.5" "a task" 90 3
     true (fun _ => "```\ncode here\n```\nreason") none _ (by decide),
   by decide,
   c2_parsed_files_iff_validated.2 "gpt-5-pro" 90 3
     (fun _ _ => "// file: index.html\n```html\n<p>hi</p>\n```\n") none _
     (by decide)⟩

theorem charsInfixOf_nil (sep : List Char) (h : sep ≠ []) :
    charsInfixOf sep [] = false := by
  cases sep with
  | nil => exact absurd rfl h
  | cons a t => rfl

theorem pySplitF_ne_nil (sep : List Char) (fuel : Nat) (l : List Char) :
    pySplitF sep fuel l ≠ [] := by
  cases fuel with
  | zero => simp [pySplitF]
  | succ fuel =>
    cases l with
    | nil => simp [pySplitF]
    | cons c t =>
      simp only [pySplitF]
      split
      · simp
      · split <;> simp

theorem pySplitF_length_ge_two (sep : List Char) (hsep : sep ≠ []) :
    ∀ (fuel : Nat) (l : List Char), l.length ≤ fuel →
      charsInfixOf sep l = true → 2 ≤ (pySplitF sep fuel l).length := by
  intro fuel
  induction fuel with
  | zero =>
    intro l hl hin
    have : l = [] := by
      cases l with
      | nil => rfl
      | cons a t => simp at hl
    subst this
    rw [charsInfixOf_nil sep hsep] at hin
    exact absurd hin (by simp)
  | succ fuel ih =>
    intro l hl hin
    cases l with
    | nil =>
      rw [charsInfixOf_nil sep hsep] at hin
      exact absurd hin (by simp)
    | cons c t =>
      simp only [pySplitF]
      split
      · have := pySplitF_ne_nil sep fuel ((c :: t).drop sep.length)
        simp only [List.length_cons]
        cases hres : pySplitF sep fuel ((c :: t).drop sep.length) with
        | nil => exact absurd hres this
        | cons a b => simp
      · rename_i hpre
        simp only [charsInfixOf, Bool.or_eq_true] at hin
        rcases hin with hin | hin
        · exact absurd hin hpre
        · have h2 := ih t (by simp only [List.length_cons] at hl; omega) hin
          cases hres : pySplitF sep fuel t with
          | nil => rw [hres] at h2; simp at h2
          | cons a b =>
            rw [hres] at h2
            simp only [List.length_cons] at h2 ⊢
            omega

theorem pyIn_split_two (sub s : String) (hsub : sub.data ≠ [])
    (h : pyIn sub s = true) : 2 ≤ (pySplitStr sub s).length := by
  simp only [pySplitStr, pySplit, List.length_map]
  exact pySplitF_length_ge_two sub.data hsub s.data.length s.data (le_refl _) h

theorem splitSectionsGo_ne_nil (ls : List String) :
    ∀ cur : FileSection, splitSectionsGo cur ls ≠ [] := by
  induction ls with
  | nil => intro cur; simp [splitSectionsGo]
  | cons l ls ih =>
    intro cur
    simp only [splitSectionsGo]
    cases hm : markerName1? l with
    | some n => simp
    | none => exact ih _

theorem splitSections_ne_nil (lines : List String)
    (h : lines.any (fun l => (markerName1? l).isSome) = true) :
    splitSections lines ≠ [] := by
  induction lines with
  | nil => simp at h
  | cons l ls ih =>
    simp only [splitSections]
    cases hm : markerName1? l with
    | some n => exact splitSectionsGo_ne_nil ls _
    | none =>
      apply ih
      simp only [List.any_cons, hm, Option.isSome_none, Bool.false_or] at h
      exact h

theorem sectionCombined_shape (sec : FileSection) :
    ∃ rest, sectionCombined sec = ("# File: " ++ sec.name) :: rest := by
  simp only [sectionCombined]
  split
  · rename_i hin
    rw [if_pos (pyIn_split_two "```" (pyJoin "\n" sec.bodyLines) (by decide) hin)]
    exact ⟨_, rfl⟩
  · exact ⟨_, rfl⟩

theorem joinSep_head (sep x : List Char) (rest : List (List Char)) :
    ∃ tail, joinSep sep (x :: rest) = x ++ tail := by
  cases rest with
  | nil => exact ⟨[], by simp [joinSep]⟩
  | cons y r => exact ⟨sep ++ joinSep sep (y :: r), by simp [joinSep]⟩

theorem mem_dropWhile_of_not (p : Char → Bool) (c : Char) :
    ∀ l : List Char, c ∈ l → p c = false → c ∈ l.dropWhile p := by
  intro l
  induction l with
  | nil => intro h _; simp at h
  | cons a t ih =>
    intro hc hp
    rw [List.dropWhile_cons]
    split
    · rename_i hpa
      rcases List.mem_cons.mp hc with rfl | hc
      · rw [hp] at hpa; exact absurd hpa (by simp)
      · exact ih hc hp
    · exact hc

theorem stripChars_ne_nil (l : List Char) (c : Char) (hc : c ∈ l)
    (hcs : isPySpace c = false) : stripChars l ≠ [] := by
  intro h
  have h1 : c ∈ stripChars l := by
    unfold stripChars
    rw [List.mem_reverse]
    exact mem_dropWhile_of_not isPySpace c _
      (List.mem_reverse.mpr (mem_dropWhile_of_not isPySpace c l hc hcs)) hcs
  rw [h] at h1
  simp at h1

/-- C9: the response parsers are total: the implementation multi-file parser
never reaches its raise (whenever a file marker occurs, the re-emitted blob
starts with a canonical marker line, so the stripped output is nonempty and
the parser returns an ok pair), and the base single-file parser signals an
absent fenced block by returning an empty code string. -/
theorem c9_parser_total :
    (∀ content : String, (impl_parse_response content).isOk = true) ∧
    (∀ content : String, pyIn "```" content = false →
      (base_parse_response content).1 = "") := by
  constructor
  · intro content
    simp only [impl_parse_response]
    split
    · rename_i hmark
      obtain ⟨s₀, rest, hsec⟩ :
          ∃ s₀ rest, splitSections (pySplitStr "\n" content) = s₀ :: rest := by
        cases hs : splitSections (pySplitStr "\n" content) with
        | nil => exact absurd hs (splitSections_ne_nil _ hmark)
        | cons a b => exact ⟨a, b, rfl⟩
      have hne : pyStrip (pyJoin "\n"
          ((splitSections (pySplitStr "\n" content)).map sectionCombined).flatten) ≠
          "" := by
        rw [hsec]
        obtain ⟨r1, hb⟩ := sectionCombined_shape s₀
        rw [List.map_cons, List.flatten_cons, hb, List.cons_append]
        simp only [pyJoin, List.map_cons]
        obtain ⟨tail, hj⟩ := joinSep_head "\n".data ("# File: " ++ s₀.name).data
          ((r1 ++ (rest.map sectionCombined).flatten).map String.data)
        rw [hj]
        intro hcontra
        have hdata : stripChars (("# File: " ++ s₀.name).data ++ tail) = [] := by
          have := congrArg String.data hcontra
          simpa [pyStrip] using this
        refine stripChars_ne_nil _ '#' ?_ (by decide) hdata
        have : ("# File: " ++ s₀.name).data = "# File: ".data ++ s₀.name.data := rfl
        rw [this, List.append_assoc]
        exact List.mem_append.mpr (Or.inl (by decide))
      rw [if_neg hne]
      rfl
    · split <;> rfl
  · intro content h
    simp [base_parse_response, h]

theorem c9_witness :
    (impl_parse_response "no markers at all").isOk = true ∧
    pyIn "```" "plain prose" = false ∧
    (base_parse_response "plain prose").1 = "" :=
  ⟨c9_parser_total.1 "no markers at all", by decide,
   c9_parser_total.2 "plain prose" (by decide)⟩
